import Mathlib

/-!
# TodoGravity: the task-list state logic of `src/App.jsx`

A shallow embedding of the `App` component's state logic: the four remote
calls of `todoAPI`, the mount-time `loadTodos`, the save effect, the three
edit handlers `addTodo`, `toggleComplete`, `deleteTodo`, the derived
`filteredTodos` and the statistics.

Modelling choices.

* A todo is the record `{ id, todo, completed, userId }`.
* The component state (the seven `useState` cells) and the `'todos'` entry of
  `localStorage` form one record, `AppState`.
* A handler is a computation in `JsM`, a state monad over `AppState` with
  JavaScript exceptions (`throw`, `try`/`catch`/`finally`, `return`).
* What the network answers is an input of each handler: the outcome of
  `fetch`, a rejected promise or a response with its `ok` flag and the
  outcome of `response.json()`.
* `JSON.stringify` and `JSON.parse` are platform functions; they are taken as
  a parameter `J : JsonCodec`. What `JSON.parse` makes of a text is a list of
  todos, some other JSON value, or a thrown error. `JsonPlatform` adds the one
  fact about the two functions that `loadTodos` relies on: a serialised list
  parses back to itself.
* Handlers run one after the other (sequential request/response): the
  `todos` a handler closes over is the current state, and the save effect
  (`useEffect` on `[todos]`) runs after every `setTodos`.
-/

namespace TodoApp

/-- One task: the object `{ id, todo, completed, userId }`. -/
structure Todo where
  id : Nat
  todo : String
  completed : Bool
  userId : Nat
deriving DecidableEq, Repr

/-- What `JSON.parse` returns: a list of todos, or a JSON value that is not
one (`null`, an object, a number, a list with other elements), named by its
text. -/
inductive Json where
  | todos (list : List Todo)
  | other (value : String)
deriving DecidableEq, Repr

/-- The platform functions `JSON.stringify`, on task lists, and `JSON.parse`,
which throws on text that is not JSON. -/
structure JsonCodec where
  stringify : List Todo → String
  parse : String → Except String Json

/-- A codec that reads a serialised list back, as `JSON.parse` does with what
`JSON.stringify` wrote. -/
structure JsonPlatform extends JsonCodec where
  parse_stringify : ∀ todos : List Todo, parse (stringify todos) = .ok (.todos todos)

/-- The state cells of `App` (lines 187-193) together with the `'todos'`
entry of `localStorage` (`none` when the key is absent). `foreign` is
`some v` when `loadTodos` has put the value `v`, which is not a list of
todos, into the `todos` cell: the next render throws on it (lines 355 and
368) and the component is gone. -/
structure AppState where
  todos : List Todo
  filter : String
  loading : Bool
  error : Option String
  isAdding : Bool
  isUpdating : Option Nat
  isDeleting : Option Nat
  storage : Option String
  foreign : Option String
deriving DecidableEq, Repr

/-- The state of a freshly mounted `App` whose `localStorage` entry is `storage`. -/
def AppState.initial (storage : Option String) : AppState :=
  { todos := [], filter := "all", loading := true, error := none, isAdding := false,
    isUpdating := none, isDeleting := none, storage := storage, foreign := none }

/-- An HTTP response as the code uses it: the `ok` flag and the outcome of
`response.json()`. -/
structure Response (α : Type) where
  ok : Bool
  json : Except String α

/-- The outcome of a `fetch` call: a rejection or a response. -/
abbrev Fetch (α : Type) := Except String (Response α)

/-- The body of `GET /todos`: an object whose `todos` field may be missing. -/
structure TodosPage where
  todos : Option (List Todo)

/-- Computations of the component: state passing with thrown errors. -/
abbrev JsM := ExceptT String (StateM AppState)

/-- Runs a handler from a state: whether it threw, and the state it leaves. -/
def exec (m : JsM Unit) (st : AppState) : Except String Unit × AppState :=
  Id.run (StateT.run (ExceptT.run m) st)

/-- Waiting for a promise: its value, or its rejection thrown. -/
def await {α : Type} (promise : Except String α) : JsM α :=
  liftExcept promise

/-! ## `todoAPI` (lines 145-183) -/

/-- `todoAPI.getAllTodos`: rejects when `fetch` rejects, when the response is
not `ok`, or when its body cannot be read. -/
def todoAPI.getAllTodos (fetch : Fetch TodosPage) : Except String TodosPage := do
  let response ← fetch
  if !response.ok then throw "Failed to fetch todos"
  response.json

/-- `todoAPI.addTodo`. -/
def todoAPI.addTodo (fetch : Fetch Todo) : Except String Todo := do
  let response ← fetch
  if !response.ok then throw "Failed to add todo"
  response.json

/-- `todoAPI.updateTodo`; the handler ignores the body of the answer. -/
def todoAPI.updateTodo (fetch : Fetch Unit) : Except String Unit := do
  let response ← fetch
  if !response.ok then throw "Failed to update todo"
  response.json

/-- `todoAPI.deleteTodo`; the handler ignores the body of the answer. -/
def todoAPI.deleteTodo (fetch : Fetch Unit) : Except String Unit := do
  let response ← fetch
  if !response.ok then throw "Failed to delete todo"
  response.json

/-! ## State setters, storage and the save effect -/

/-- `setLoading`. -/
def setLoading (b : Bool) : JsM Unit :=
  modify fun s => { s with loading := b }

/-- `setError`. -/
def setError (e : Option String) : JsM Unit :=
  modify fun s => { s with error := e }

/-- `setIsAdding`. -/
def setIsAdding (b : Bool) : JsM Unit :=
  modify fun s => { s with isAdding := b }

/-- `setIsUpdating`. -/
def setIsUpdating (id : Option Nat) : JsM Unit :=
  modify fun s => { s with isUpdating := id }

/-- `setIsDeleting`. -/
def setIsDeleting (id : Option Nat) : JsM Unit :=
  modify fun s => { s with isDeleting := id }

/-- `localStorage.getItem('todos')`. -/
def getItem : JsM (Option String) := do
  return (← get).storage

/-- `localStorage.setItem('todos', value)`. -/
def setItem (value : String) : JsM Unit :=
  modify fun s => { s with storage := some value }

/-- Truthiness of what `getItem` returns: `null` and the empty string are falsy. -/
def truthy (saved : Option String) : Bool :=
  match saved with
  | none => false
  | some s => s != ""

/-- The save effect (lines 241-246): writes the list to storage when it is
not empty. -/
def saveEffect (J : JsonCodec) : JsM Unit := do
  let todos := (← get).todos
  if todos.length > 0 then
    setItem (J.stringify todos)

/-- `setTodos(update)` followed by the re-render it causes, which runs the
save effect. -/
def setTodos (J : JsonCodec) (update : List Todo → List Todo) : JsM Unit := do
  modify fun s => { s with todos := update s.todos }
  saveEffect J

/-- `setTodos(localTodos)` with what `JSON.parse` made of the storage entry
(lines 207 and 228). The code does not check the value: a list of todos
becomes the todo list, any other value lands in the `todos` cell as it is,
and the render that follows throws on it before the save effect can run. -/
def setTodosParsed (J : JsonCodec) (value : Json) : JsM Unit :=
  match value with
  | .todos localTodos => setTodos J fun _ => localTodos
  | .other v => modify fun s => { s with foreign := some v }

/-! ## `loadTodos` (lines 195-239) -/

/-- The mount effect `loadTodos`. -/
def loadTodos (J : JsonCodec) (fetch : Fetch TodosPage) : JsM Unit := do
  try
    setLoading true
    setError none
    let savedTodos ← getItem
    if truthy savedTodos then
      (try
        let localTodos ← await (J.parse (savedTodos.getD ""))
        setTodosParsed J localTodos
      catch _ =>
        pure ())
    let response ← await (todoAPI.getAllTodos fetch)
    if let some todos := response.todos then
      setTodos J fun _ => todos
      setItem (J.stringify todos)
  catch _ =>
    setError (some "Failed to load todos. Using offline data if available.")
    let savedTodos ← getItem
    if truthy savedTodos then
      (try
        let localTodos ← await (J.parse (savedTodos.getD ""))
        setTodosParsed J localTodos
      catch _ =>
        pure ())
  finally
    setLoading false

/-! ## The edit handlers (lines 248-352) -/

/-- The handler `addTodo(text)`; `now` is the value of `Date.now()`. -/
def addTodo (J : JsonCodec) (now : Nat) (text : String) (fetch : Fetch Todo) : JsM Unit := do
  let tempTodo : Todo := { id := now, todo := text, completed := false, userId := 1 }
  try
    setIsAdding true
    setError none
    setTodos J fun prevTodos => tempTodo :: prevTodos
    (try
      let newTodo ← await (todoAPI.addTodo fetch)
      setTodos J fun prevTodos =>
        prevTodos.map fun todo =>
          if todo.id = tempTodo.id then { newTodo with id := tempTodo.id } else todo
    catch _ =>
      pure ())
  catch _ =>
    setError (some "Failed to add todo")
    setTodos J fun prevTodos => prevTodos.filter fun todo => todo.id != tempTodo.id
  finally
    setIsAdding false

/-- The handler `toggleComplete(id)`. -/
def toggleComplete (J : JsonCodec) (id : Nat) (fetch : Fetch Unit) : JsM Unit := do
  let todos := (← get).todos
  try
    setIsUpdating (some id)
    setError none
    let todoToUpdate := todos.find? fun todo => todo.id == id
    if todoToUpdate.isNone then return
    setTodos J fun prevTodos =>
      prevTodos.map fun todo =>
        if todo.id = id then { todo with completed := !todo.completed } else todo
    (try
      await (todoAPI.updateTodo fetch)
    catch _ =>
      pure ())
  catch _ =>
    setError (some "Failed to update todo")
    setTodos J fun prevTodos =>
      prevTodos.map fun todo =>
        if todo.id = id then { todo with completed := !todo.completed } else todo
  finally
    setIsUpdating none

/-- The handler `deleteTodo(id)`. -/
def deleteTodo (J : JsonCodec) (id : Nat) (fetch : Fetch Unit) : JsM Unit := do
  let todos := (← get).todos
  let todoToDelete := todos.find? fun todo => todo.id == id
  try
    setIsDeleting (some id)
    setError none
    setTodos J fun prevTodos => prevTodos.filter fun todo => todo.id != id
    (try
      await (todoAPI.deleteTodo fetch)
    catch _ =>
      pure ())
  catch _ =>
    setError (some "Failed to delete todo")
    if let some todo := todoToDelete then
      setTodos J fun prevTodos => prevTodos ++ [todo]
  finally
    setIsDeleting none

/-! ## Derived data (lines 354-369) -/

/-- The list shown under a filter key. -/
def filteredTodos (todos : List Todo) (filter : String) : List Todo :=
  todos.filter fun todo =>
    match filter with
    | "completed" => todo.completed
    | "pending" => !todo.completed
    | _ => true

/-- The statistic `Total`. -/
def totalTodos (todos : List Todo) : Nat :=
  todos.length

/-- The statistic `Completed`. -/
def completedTodos (todos : List Todo) : Nat :=
  (todos.filter fun todo => todo.completed).length

/-- The statistic `Pending`, the difference of two numbers. -/
def pendingTodos (todos : List Todo) : Int :=
  (totalTodos todos : Int) - (completedTodos todos : Int)

/-! ## Example data -/

/-- A number in tally marks: `n` times `1`, then `0`. -/
def writeNat (n : Nat) : List Char :=
  List.replicate n '1' ++ ['0']

/-- Reads a number in tally marks off the front of a text. -/
def readNat : List Char → Option (Nat × List Char)
  | [] => none
  | c :: cs =>
    if c = '1' then (readNat cs).map fun p => (p.1 + 1, p.2)
    else if c = '0' then some (0, cs)
    else none

/-- A todo as text: the id, the length of the text, the text, `T` or `F` for
`completed`, the user id. -/
def writeTodo (t : Todo) : List Char :=
  writeNat t.id ++ (writeNat t.todo.data.length ++ (t.todo.data ++
    ((if t.completed then 'T' else 'F') :: writeNat t.userId)))

/-- Reads a todo off the front of a text. -/
def readTodo (cs : List Char) : Option (Todo × List Char) :=
  match readNat cs with
  | none => none
  | some (id, r1) =>
    match readNat r1 with
    | none => none
    | some (n, r2) =>
      match r2.drop n with
      | [] => none
      | c :: r3 =>
        match readNat r3 with
        | none => none
        | some (userId, r4) =>
          some ({ id := id, todo := String.mk (r2.take n), completed := decide (c = 'T'),
                  userId := userId }, r4)

/-- The todos of a list as text, one after the other. -/
def writeTodos : List Todo → List Char
  | [] => []
  | t :: ts => writeTodo t ++ writeTodos ts

/-- Reads the given number of todos off the front of a text. -/
def readTodos : Nat → List Char → Option (List Todo × List Char)
  | 0, cs => some ([], cs)
  | n + 1, cs =>
    match readTodo cs with
    | none => none
    | some (t, r) =>
      match readTodos n r with
      | none => none
      | some (ts, r2) => some (t :: ts, r2)

/-- A small platform used to run the handlers on examples. A list is written
as its length and its todos; `parse` reads such a text back, takes the text
`null` for the value `null`, and throws on any other text. -/
def sampleJson : JsonPlatform where
  stringify := fun todos => String.mk (writeNat todos.length ++ writeTodos todos)
  parse := fun text =>
    match readNat text.data with
    | some (n, r) =>
      match readTodos n r with
      | some (todos, []) => .ok (.todos todos)
      | _ => .error "Unexpected token"
    | none => if text = "null" then .ok (.other "null") else .error "Unexpected token"
  parse_stringify := by
    intro todos
    have hnat : ∀ (n : Nat) (r : List Char), readNat (writeNat n ++ r) = some (n, r) := by
      intro n r
      induction n with
      | zero => simp [writeNat, readNat]
      | succ k ih =>
        have : writeNat (k + 1) ++ r = '1' :: (writeNat k ++ r) := by
          simp [writeNat, List.replicate_succ]
        rw [this, readNat, if_pos rfl, ih]
        rfl
    have htodo : ∀ (t : Todo) (r : List Char), readTodo (writeTodo t ++ r) = some (t, r) := by
      intro t r
      have e : writeTodo t ++ r = writeNat t.id ++ (writeNat t.todo.data.length ++
          (t.todo.data ++ ((if t.completed then 'T' else 'F') :: (writeNat t.userId ++ r)))) := by
        simp [writeTodo, List.append_assoc]
      rw [e, readTodo]
      simp only [hnat, List.drop_left, List.take_left]
      cases hc : t.completed <;> simp [hc]
      all_goals (cases t; simp_all)
    have hlist : ∀ (l : List Todo) (r : List Char),
        readTodos l.length (writeTodos l ++ r) = some (l, r) := by
      intro l
      induction l with
      | nil => intro r; rfl
      | cons t ts ih =>
        intro r
        have e : writeTodos (t :: ts) ++ r = writeTodo t ++ (writeTodos ts ++ r) := by
          simp [writeTodos, List.append_assoc]
        rw [List.length_cons, e, readTodos, htodo]
        simp only [ih]
    have h := hlist todos []
    rw [List.append_nil] at h
    simp only [hnat, h]

/-- The two functions of `sampleJson`. -/
def sampleCodec : JsonCodec :=
  sampleJson.toJsonCodec

/-- A running component showing two todos, with the matching storage entry. -/
def sampleState : AppState :=
  { todos := [{ id := 1, todo := "milk", completed := false, userId := 1 },
              { id := 2, todo := "eggs", completed := true, userId := 1 }],
    filter := "all", loading := false, error := none, isAdding := false,
    isUpdating := none, isDeleting := none,
    storage := some "1101011110milkF1011011110eggsT10", foreign := none }

/-- A running component showing one todo, with the matching storage entry. -/
def lastItemState : AppState :=
  { todos := [{ id := 1, todo := "milk", completed := false, userId := 1 }],
    filter := "all", loading := false, error := none, isAdding := false,
    isUpdating := none, isDeleting := none, storage := some "101011110milkF10",
    foreign := none }

/-- A running component with no todo yet and nothing in storage. -/
def emptyState : AppState :=
  { todos := [], filter := "all", loading := false, error := none, isAdding := false,
    isUpdating := none, isDeleting := none, storage := none, foreign := none }

/-- A `fetch` that rejects: the network is down. -/
def offline {α : Type} : Fetch α :=
  .error "Failed to fetch"

/-- A `fetch` answered with a server error status. -/
def serverError {α : Type} (body : α) : Fetch α :=
  .ok { ok := false, json := .ok body }

/-- A `fetch` answered with status `ok` and a readable body. -/
def answered {α : Type} (body : α) : Fetch α :=
  .ok { ok := true, json := .ok body }

/-! ## The handlers as state functions -/

/-- Whether a promise was rejected. -/
def rejected {α : Type} (promise : Except String α) : Bool :=
  match promise with
  | .ok _ => false
  | .error _ => true

/-- The state after the save effect has run. -/
def saved (J : JsonCodec) (s : AppState) : AppState :=
  if s.todos.length > 0 then { s with storage := some (J.stringify s.todos) } else s

/-- The state after `setTodos(update)` and the save effect. -/
def withTodos (J : JsonCodec) (update : List Todo → List Todo) (s : AppState) : AppState :=
  saved J { s with todos := update s.todos }

/-- The state after `setTodosParsed`. -/
def withParsed (J : JsonCodec) (value : Json) (s : AppState) : AppState :=
  match value with
  | .todos localTodos => withTodos J (fun _ => localTodos) s
  | .other v => { s with foreign := some v }

/-- The state after the storage entry, when there is one and it parses, has
been put into the state (lines 203-211 and 224-232). -/
def restore (J : JsonCodec) (s : AppState) : AppState :=
  if truthy s.storage then
    match J.parse (s.storage.getD "") with
    | .ok value => withParsed J value s
    | .error _ => s
  else s

/-- The optimistic todo built by `addTodo`. -/
def tempTodoOf (now : Nat) (text : String) : Todo :=
  { id := now, todo := text, completed := false, userId := 1 }

/-- The list update of line 267: the temporary todo gives way to the answer of
the API, which keeps the temporary id. -/
def replaceTemp (now : Nat) (newTodo : Todo) (todos : List Todo) : List Todo :=
  todos.map fun todo => if todo.id = now then { newTodo with id := now } else todo

/-- The list update of line 296: the todos with the given id change their
`completed` flag. -/
def toggleMap (id : Nat) (todos : List Todo) : List Todo :=
  todos.map fun todo => if todo.id = id then { todo with completed := !todo.completed } else todo

/-- The list update of line 333: the todos with the given id go. -/
def removeId (id : Nat) (todos : List Todo) : List Todo :=
  todos.filter fun todo => todo.id != id

/-- The ids of a list, in order. -/
def ids (todos : List Todo) : List Nat :=
  todos.map Todo.id

/-! ## The handlers, run

Each handler is brought to the form of a function on states; none of them throws. -/

theorem saveEffect_eq (J : JsonCodec) : saveEffect J = modify (saved J) := by
  funext s
  show (if s.todos.length > 0 then setItem (J.stringify s.todos) else pure PUnit.unit : JsM _) s
    = (Except.ok PUnit.unit, saved J s)
  by_cases h : s.todos.length > 0
  · rw [if_pos h, saved, if_pos h]
    rfl
  · rw [if_neg h, saved, if_neg h]
    rfl

theorem setTodos_eq (J : JsonCodec) (update : List Todo → List Todo) :
    setTodos J update = modify (withTodos J update) := by
  rw [setTodos, saveEffect_eq]
  rfl

theorem setTodosParsed_eq (J : JsonCodec) (value : Json) :
    setTodosParsed J value = modify (withParsed J value) := by
  cases value with
  | todos l =>
    show setTodos J (fun _ => l) = _
    exact setTodos_eq J _
  | other v => rfl

theorem exec_get_bind (f : AppState → JsM Unit) (st : AppState) :
    exec (get >>= f) st = exec (f st) st := rfl

theorem restore_last (J : JsonCodec) :
    (do
      let savedTodos ← getItem
      if truthy savedTodos then
        (try
          let localTodos ← await (J.parse (savedTodos.getD ""))
          setTodosParsed J localTodos
        catch _ =>
          pure ()) : JsM Unit) = modify (restore J) := by
  simp only [setTodosParsed_eq]
  funext s
  show (if truthy s.storage = true then _ else _ : JsM _) s = (Except.ok PUnit.unit, restore J s)
  by_cases h : truthy s.storage = true
  · rw [if_pos h, restore, if_pos h]
    cases J.parse (s.storage.getD "") <;> rfl
  · rw [if_neg h, restore, if_neg h]
    rfl

theorem restore_then (J : JsonCodec) (k : JsM Unit) :
    (do
      let savedTodos ← getItem
      if truthy savedTodos then
        (try
          let localTodos ← await (J.parse (savedTodos.getD ""))
          setTodosParsed J localTodos
        catch _ =>
          pure ())
      k : JsM Unit) = (do modify (restore J); k) := by
  simp only [setTodosParsed_eq]
  funext s
  show (if truthy s.storage = true then _ else _ : JsM _) s = (k : JsM Unit) (restore J s)
  by_cases h : truthy s.storage = true
  · rw [if_pos h, restore, if_pos h]
    cases J.parse (s.storage.getD "") <;> rfl
  · rw [if_neg h, restore, if_neg h]
    rfl

/-- What `loadTodos` does, as a function on states; it never throws. -/
theorem exec_loadTodos (J : JsonCodec) (fetch : Fetch TodosPage) (st : AppState) :
    exec (loadTodos J fetch) st =
      (Except.ok (),
        match todoAPI.getAllTodos fetch with
        | .ok response =>
          match response.todos with
          | some todos =>
            { withTodos J (fun _ => todos) (restore J { st with loading := true, error := none }) with
              storage := some (J.stringify todos), loading := false }
          | none => { restore J { st with loading := true, error := none } with loading := false }
        | .error _ =>
          { restore J
              { restore J { st with loading := true, error := none } with
                error := some "Failed to load todos. Using offline data if available." } with
            loading := false }) := by
  rw [loadTodos]
  simp only [restore_last, restore_then]
  simp only [setTodos_eq]
  generalize todoAPI.getAllTodos fetch = r
  rcases r with e | ⟨_ | todos⟩ <;> rfl

/-- What `addTodo` does, as a function on states; it never throws. -/
theorem exec_addTodo (J : JsonCodec) (now : Nat) (text : String) (fetch : Fetch Todo)
    (st : AppState) :
    exec (addTodo J now text fetch) st =
      (Except.ok (),
        match todoAPI.addTodo fetch with
        | .ok newTodo =>
          { withTodos J (replaceTemp now newTodo)
              (withTodos J (fun prevTodos => tempTodoOf now text :: prevTodos)
                { st with isAdding := true, error := none }) with isAdding := false }
        | .error _ =>
          { withTodos J (fun prevTodos => tempTodoOf now text :: prevTodos)
              { st with isAdding := true, error := none } with isAdding := false }) := by
  rw [addTodo]
  simp only [setTodos_eq]
  generalize todoAPI.addTodo fetch = r
  cases r <;> rfl

/-- What `toggleComplete` does, as a function on states; it never throws. -/
theorem exec_toggleComplete (J : JsonCodec) (id : Nat) (fetch : Fetch Unit) (st : AppState) :
    exec (toggleComplete J id fetch) st =
      (Except.ok (),
        if (st.todos.find? fun todo => todo.id == id).isNone then
          { st with error := none, isUpdating := none }
        else
          { withTodos J (toggleMap id) { st with isUpdating := some id, error := none } with
            isUpdating := none }) := by
  rw [toggleComplete, exec_get_bind]
  simp only [setTodos_eq]
  generalize todoAPI.updateTodo fetch = r
  cases (st.todos.find? fun todo => todo.id == id) <;> cases r <;> rfl

/-- What `deleteTodo` does, as a function on states; it never throws. -/
theorem exec_deleteTodo (J : JsonCodec) (id : Nat) (fetch : Fetch Unit) (st : AppState) :
    exec (deleteTodo J id fetch) st =
      (Except.ok (),
        { withTodos J (removeId id) { st with isDeleting := some id, error := none } with
          isDeleting := none }) := by
  rw [deleteTodo, exec_get_bind]
  simp only [setTodos_eq]
  generalize todoAPI.deleteTodo fetch = r
  cases r <;> rfl

/-! ## Projections of the state functions -/

@[simp]
theorem saved_todos (J : JsonCodec) (s : AppState) : (saved J s).todos = s.todos := by
  unfold saved; split <;> rfl

@[simp]
theorem saved_error (J : JsonCodec) (s : AppState) : (saved J s).error = s.error := by
  unfold saved; split <;> rfl

@[simp]
theorem saved_loading (J : JsonCodec) (s : AppState) :
    (saved J s).loading = s.loading := by
  unfold saved; split <;> rfl

@[simp]
theorem saved_isAdding (J : JsonCodec) (s : AppState) :
    (saved J s).isAdding = s.isAdding := by
  unfold saved; split <;> rfl

@[simp]
theorem saved_foreign (J : JsonCodec) (s : AppState) :
    (saved J s).foreign = s.foreign := by
  unfold saved; split <;> rfl

theorem saved_storage (J : JsonCodec) (s : AppState) :
    (saved J s).storage = if s.todos = [] then s.storage else some (J.stringify s.todos) := by
  unfold saved
  cases h : s.todos <;> simp

@[simp]
theorem withTodos_todos (J : JsonCodec) (u : List Todo → List Todo) (s : AppState) :
    (withTodos J u s).todos = u s.todos := by
  simp [withTodos]

@[simp]
theorem withTodos_error (J : JsonCodec) (u : List Todo → List Todo) (s : AppState) :
    (withTodos J u s).error = s.error := by
  simp [withTodos]

@[simp]
theorem withTodos_loading (J : JsonCodec) (u : List Todo → List Todo) (s : AppState) :
    (withTodos J u s).loading = s.loading := by
  simp [withTodos]

@[simp]
theorem withTodos_isAdding (J : JsonCodec) (u : List Todo → List Todo) (s : AppState) :
    (withTodos J u s).isAdding = s.isAdding := by
  simp [withTodos]

@[simp]
theorem withTodos_foreign (J : JsonCodec) (u : List Todo → List Todo) (s : AppState) :
    (withTodos J u s).foreign = s.foreign := by
  simp [withTodos]

theorem withTodos_storage (J : JsonCodec) (u : List Todo → List Todo) (s : AppState) :
    (withTodos J u s).storage =
      if u s.todos = [] then s.storage else some (J.stringify (u s.todos)) := by
  simp [withTodos, saved_storage]

/-! ## Facts about the list updates -/

theorem find_isNone_iff (id : Nat) (todos : List Todo) :
    (todos.find? fun todo => todo.id == id).isNone = true ↔ id ∉ ids todos := by
  induction todos with
  | nil => simp [ids]
  | cons t rest ih =>
    by_cases h : t.id = id
    · simp [ids, List.find?_cons, h]
    · have h2 : ¬ id = t.id := fun e => h e.symm
      simp [ids, List.find?_cons, h, h2]

theorem toggleMap_of_not_mem (id : Nat) (todos : List Todo) (h : id ∉ ids todos) :
    toggleMap id todos = todos := by
  unfold toggleMap
  conv_rhs => rw [← List.map_id todos]
  apply List.map_congr_left
  intro t ht
  have : t.id ≠ id := fun e => h (e ▸ List.mem_map_of_mem Todo.id ht)
  simp [this]

theorem replaceTemp_of_not_mem (now : Nat) (newTodo : Todo) (todos : List Todo)
    (h : now ∉ ids todos) : replaceTemp now newTodo todos = todos := by
  unfold replaceTemp
  conv_rhs => rw [← List.map_id todos]
  apply List.map_congr_left
  intro t ht
  have : t.id ≠ now := fun e => h (e ▸ List.mem_map_of_mem Todo.id ht)
  simp [this]

theorem ids_toggleMap (id : Nat) (todos : List Todo) : ids (toggleMap id todos) = ids todos := by
  unfold ids toggleMap
  rw [List.map_map]
  apply List.map_congr_left
  intro t _
  by_cases h : t.id = id <;> simp [h]

theorem ids_replaceTemp (now : Nat) (newTodo : Todo) (todos : List Todo) :
    ids (replaceTemp now newTodo todos) = ids todos := by
  unfold ids replaceTemp
  rw [List.map_map]
  apply List.map_congr_left
  intro t _
  by_cases h : t.id = now <;> simp [h]

theorem ids_removeId (id : Nat) (todos : List Todo) :
    ids (removeId id todos) = (ids todos).filter fun i => i != id := by
  unfold ids removeId
  rw [List.filter_map]
  rfl

theorem length_removeId (id : Nat) (todos : List Todo) (hnd : (ids todos).Nodup)
    (hid : id ∈ ids todos) : (removeId id todos).length + 1 = todos.length := by
  induction todos with
  | nil => simp [ids] at hid
  | cons t rest ih =>
    have hnd2 : t.id ∉ ids rest ∧ (ids rest).Nodup := by simpa [ids] using hnd
    by_cases ht : t.id = id
    · have hrest : removeId id rest = rest := by
        unfold removeId
        rw [List.filter_eq_self]
        intro a ha
        have : a.id ≠ id := fun e => hnd2.1 (ht ▸ e ▸ List.mem_map_of_mem Todo.id ha)
        simp [this]
      have : removeId id (t :: rest) = removeId id rest := by
        simp [removeId, ht]
      rw [this, hrest, List.length_cons]
    · have hid2 : id ∈ ids rest := by
        have : id = t.id ∨ id ∈ ids rest := by simpa [ids] using hid
        rcases this with e | h
        · exact absurd e.symm ht
        · exact h
      have : removeId id (t :: rest) = t :: removeId id rest := by
        simp [removeId, ht]
      rw [this, List.length_cons, List.length_cons, ih hnd2.2 hid2]

/-! ## The lists the handlers leave -/

theorem todos_addTodo (J : JsonCodec) (now : Nat) (text : String) (fetch : Fetch Todo)
    (st : AppState) :
    (exec (addTodo J now text fetch) st).2.todos =
      match todoAPI.addTodo fetch with
      | .ok newTodo => replaceTemp now newTodo (tempTodoOf now text :: st.todos)
      | .error _ => tempTodoOf now text :: st.todos := by
  rw [exec_addTodo]
  cases todoAPI.addTodo fetch <;> simp

theorem todos_toggleComplete (J : JsonCodec) (id : Nat) (fetch : Fetch Unit) (st : AppState) :
    (exec (toggleComplete J id fetch) st).2.todos = toggleMap id st.todos := by
  rw [exec_toggleComplete]
  by_cases h : (st.todos.find? fun todo => todo.id == id).isNone = true
  · rw [if_pos h, toggleMap_of_not_mem id st.todos ((find_isNone_iff id st.todos).1 h)]
  · rw [if_neg h]
    simp

theorem todos_deleteTodo (J : JsonCodec) (id : Nat) (fetch : Fetch Unit) (st : AppState) :
    (exec (deleteTodo J id fetch) st).2.todos = removeId id st.todos := by
  rw [exec_deleteTodo]
  simp

theorem storage_deleteTodo (J : JsonCodec) (id : Nat) (fetch : Fetch Unit) (st : AppState) :
    (exec (deleteTodo J id fetch) st).2.storage =
      if removeId id st.todos = [] then st.storage
      else some (J.stringify (removeId id st.todos)) := by
  rw [exec_deleteTodo]
  simp [withTodos_storage]

theorem toggleMap_ne_self (id : Nat) (todos : List Todo) (hid : id ∈ ids todos) :
    toggleMap id todos ≠ todos := by
  induction todos with
  | nil => simp [ids] at hid
  | cons t rest ih =>
    intro h
    have h2 : (if t.id = id then { t with completed := !t.completed } else t) = t ∧
        toggleMap id rest = rest := by
      simpa [toggleMap] using h
    by_cases ht : t.id = id
    · have h3 := congrArg Todo.completed h2.1
      rw [if_pos ht] at h3
      cases hc : t.completed <;> simp [hc] at h3
    · have hid2 : id ∈ ids rest := by
        have : id = t.id ∨ id ∈ ids rest := by simpa [ids] using hid
        rcases this with e | h4
        · exact absurd e.symm ht
        · exact h4
      exact ih hid2 h2.2

theorem removeId_ne_self (id : Nat) (todos : List Todo) (hid : id ∈ ids todos) :
    removeId id todos ≠ todos := by
  intro h
  have hall : ∀ a ∈ todos, (a.id != id) = true := by
    have := (List.filter_eq_self (p := fun todo : Todo => todo.id != id) (l := todos)).1 h
    exact this
  obtain ⟨t, ht, hte⟩ : ∃ t, t ∈ todos ∧ t.id = id := by simpa [ids] using hid
  have := hall t ht
  simp [hte] at this

theorem cons_ne_self (t : Todo) (todos : List Todo) : t :: todos ≠ todos := by
  intro h
  have := congrArg List.length h
  simp at this

theorem rejected_iff {α : Type} (promise : Except String α) :
    rejected promise = true ↔ ∃ e, promise = .error e := by
  cases promise <;> simp [rejected]

/-! ## Claims about the edit handlers -/

/-- C1, as stated, fails: with the network down, each of `addTodo`,
`toggleComplete` and `deleteTodo` (on an id of the list) leaves a list that
differs from the one it started from. -/
theorem edit_failure_not_reverted :
    rejected (todoAPI.addTodo offline) = true ∧
    rejected (todoAPI.updateTodo offline) = true ∧
    rejected (todoAPI.deleteTodo offline) = true ∧
    1 ∈ ids sampleState.todos ∧
    (exec (addTodo sampleCodec 7 "tea" offline) sampleState).2.todos ≠ sampleState.todos ∧
    (exec (toggleComplete sampleCodec 1 offline) sampleState).2.todos ≠ sampleState.todos ∧
    (exec (deleteTodo sampleCodec 1 offline) sampleState).2.todos ≠ sampleState.todos := by
  decide

/-- C1, amended: when the remote call of an edit fails, the handler does not
throw and the list it leaves is the optimistically edited one, not the list
from before: for `addTodo`, on every list, the temporary todo before the
previous list; for `toggleComplete` of an id of the list, the previous list
with the `completed` flag of the todos with that id negated; for `deleteTodo`
of an id of the list, the previous list without the todos with that id. -/
theorem edit_failure_keeps_optimistic_edit (J : JsonCodec) (st : AppState) (now : Nat)
    (text : String) (id : Nat) (fa : Fetch Todo) (fu fd : Fetch Unit) :
    (rejected (todoAPI.addTodo fa) = true →
      (exec (addTodo J now text fa) st).1 = .ok () ∧
      (exec (addTodo J now text fa) st).2.todos =
        { id := now, todo := text, completed := false, userId := 1 } :: st.todos ∧
      (exec (addTodo J now text fa) st).2.todos ≠ st.todos) ∧
    (id ∈ ids st.todos → rejected (todoAPI.updateTodo fu) = true →
      (exec (toggleComplete J id fu) st).1 = .ok () ∧
      (exec (toggleComplete J id fu) st).2.todos =
        (st.todos.map fun todo =>
          if todo.id = id then { todo with completed := !todo.completed } else todo) ∧
      (exec (toggleComplete J id fu) st).2.todos ≠ st.todos) ∧
    (id ∈ ids st.todos → rejected (todoAPI.deleteTodo fd) = true →
      (exec (deleteTodo J id fd) st).1 = .ok () ∧
      (exec (deleteTodo J id fd) st).2.todos = (st.todos.filter fun todo => todo.id != id) ∧
      (exec (deleteTodo J id fd) st).2.todos ≠ st.todos) := by
  refine ⟨?_, ?_, ?_⟩
  · intro ha
    obtain ⟨e, he⟩ := (rejected_iff _).1 ha
    refine ⟨?_, ?_, ?_⟩
    · rw [exec_addTodo]
    · rw [todos_addTodo, he]
      rfl
    · rw [todos_addTodo, he]
      exact cons_ne_self _ _
  · intro hid _
    refine ⟨?_, ?_, ?_⟩
    · rw [exec_toggleComplete]
    · rw [todos_toggleComplete]
      rfl
    · rw [todos_toggleComplete]
      exact toggleMap_ne_self id st.todos hid
  · intro hid _
    refine ⟨?_, ?_, ?_⟩
    · rw [exec_deleteTodo]
    · rw [todos_deleteTodo]
      rfl
    · rw [todos_deleteTodo]
      exact removeId_ne_self id st.todos hid

/-- Instance: the first todo added to an empty list with the network down,
and a toggle and a delete of the second todo of the sample list, the one
answered by a rejection and the other by an error status. -/
theorem edit_failure_keeps_optimistic_edit_witness :
    (exec (addTodo sampleCodec 7 "tea" offline) emptyState).2.todos =
        [{ id := 7, todo := "tea", completed := false, userId := 1 }] ∧
    (exec (toggleComplete sampleCodec 2 offline) sampleState).2.todos =
        [{ id := 1, todo := "milk", completed := false, userId := 1 },
         { id := 2, todo := "eggs", completed := false, userId := 1 }] ∧
    (exec (deleteTodo sampleCodec 2 (serverError ())) sampleState).2.todos =
        [{ id := 1, todo := "milk", completed := false, userId := 1 }] :=
  ⟨((edit_failure_keeps_optimistic_edit sampleCodec emptyState 7 "tea" 2
      offline offline offline).1 (by decide)).2.1,
    ((edit_failure_keeps_optimistic_edit sampleCodec sampleState 7 "tea" 2
      offline offline offline).2.1 (by decide) (by decide)).2.1,
    ((edit_failure_keeps_optimistic_edit sampleCodec sampleState 7 "tea" 2
      offline offline (serverError ())).2.2 (by decide) (by decide)).2.1⟩

/-- C3, as stated, fails: the API answers with a todo of id 255, and the first
element of the list is not that todo. -/
theorem addTodo_success_not_api_todo :
    7 ∉ ids sampleState.todos ∧
    todoAPI.addTodo (answered { id := 255, todo := "tea", completed := false, userId := 1 }) =
      .ok { id := 255, todo := "tea", completed := false, userId := 1 } ∧
    (exec (addTodo sampleCodec 7 "tea"
        (answered { id := 255, todo := "tea", completed := false, userId := 1 }))
      sampleState).2.todos ≠
      { id := 255, todo := "tea", completed := false, userId := 1 } :: sampleState.todos := by
  refine ⟨by decide, rfl, by decide⟩

/-- C3, amended: with a temporary id not used in the list, when the remote add
call succeeds and returns `r`, the list after `addTodo(text)` is the previous
list, unchanged and in order, preceded by exactly one new element: `r` with its
id replaced by the temporary id. -/
theorem addTodo_success_replaces_temp (J : JsonCodec) (st : AppState) (now : Nat)
    (text : String) (fetch : Fetch Todo) (r : Todo)
    (hfresh : now ∉ ids st.todos) (hok : todoAPI.addTodo fetch = .ok r) :
    (exec (addTodo J now text fetch) st).2.todos = { r with id := now } :: st.todos := by
  rw [todos_addTodo, hok]
  show replaceTemp now r (tempTodoOf now text :: st.todos) = _
  have h : replaceTemp now r (tempTodoOf now text :: st.todos) =
      { r with id := now } :: replaceTemp now r st.todos := by
    simp [replaceTemp, tempTodoOf]
  rw [h, replaceTemp_of_not_mem now r st.todos hfresh]

/-- Instance: the API answers with id 255 and
user 5, the list shows the answer under the temporary id 7. -/
theorem addTodo_success_replaces_temp_witness :
    (exec (addTodo sampleCodec 7 "tea"
        (answered { id := 255, todo := "tea", completed := false, userId := 5 }))
      sampleState).2.todos =
      { id := 7, todo := "tea", completed := false, userId := 5 } :: sampleState.todos :=
  addTodo_success_replaces_temp sampleCodec sampleState 7 "tea"
    (answered { id := 255, todo := "tea", completed := false, userId := 5 })
    { id := 255, todo := "tea", completed := false, userId := 5 } (by decide) rfl

/-- C4: when the remote add call fails, `addTodo(text)` does not throw, the list
afterwards is the previous list preceded by the local todo (`todo = text`,
`completed = false`, `userId = 1`, the temporary id), and the adding flag is
`false` again. -/
theorem addTodo_failure_keeps_local_todo (J : JsonCodec) (st : AppState) (now : Nat)
    (text : String) (fetch : Fetch Todo) (hfail : rejected (todoAPI.addTodo fetch) = true) :
    (exec (addTodo J now text fetch) st).1 = .ok () ∧
    (exec (addTodo J now text fetch) st).2.todos =
      { id := now, todo := text, completed := false, userId := 1 } :: st.todos ∧
    (exec (addTodo J now text fetch) st).2.isAdding = false := by
  obtain ⟨e, he⟩ := (rejected_iff _).1 hfail
  refine ⟨?_, ?_, ?_⟩
  · rw [exec_addTodo]
  · rw [todos_addTodo, he]
    rfl
  · rw [exec_addTodo, he]

/-- Instance: the server answers with an
error status. -/
theorem addTodo_failure_keeps_local_todo_witness :
    rejected (todoAPI.addTodo
      (serverError { id := 255, todo := "tea", completed := false, userId := 1 })) = true ∧
    (exec (addTodo sampleCodec 7 "tea"
        (serverError { id := 255, todo := "tea", completed := false, userId := 1 }))
      sampleState).2.todos =
      { id := 7, todo := "tea", completed := false, userId := 1 } :: sampleState.todos :=
  ⟨by decide,
    (addTodo_failure_keeps_local_todo sampleCodec sampleState 7 "tea"
      (serverError { id := 255, todo := "tea", completed := false, userId := 1 })
      (by decide)).2.1⟩

/-- C6: whatever the remote update call answers, `toggleComplete(id)` does not
throw and leaves a list of the same length in which, position by position, a
todo with that id has its `completed` flag negated and its other fields
unchanged, and a todo with another id is unchanged; for an id that is not in
the list the list is unchanged. -/
theorem toggleComplete_frame (J : JsonCodec) (st : AppState) (id : Nat) (fetch : Fetch Unit) :
    (exec (toggleComplete J id fetch) st).1 = .ok () ∧
    (exec (toggleComplete J id fetch) st).2.todos.length = st.todos.length ∧
    (∀ (i : Nat) (t : Todo), st.todos[i]? = some t →
      (exec (toggleComplete J id fetch) st).2.todos[i]? =
        some (if t.id = id then
          { id := t.id, todo := t.todo, completed := !t.completed, userId := t.userId }
        else t)) ∧
    (id ∉ ids st.todos → (exec (toggleComplete J id fetch) st).2.todos = st.todos) := by
  refine ⟨?_, ?_, ?_, ?_⟩
  · rw [exec_toggleComplete]
  · rw [todos_toggleComplete, toggleMap, List.length_map]
  · intro i t ht
    rw [todos_toggleComplete, toggleMap, List.getElem?_map, ht]
    rfl
  · intro h
    rw [todos_toggleComplete, toggleMap_of_not_mem id st.todos h]

/-- Instance: an id that is not in the sample list
leaves the list as it was. -/
theorem toggleComplete_frame_witness :
    (exec (toggleComplete sampleCodec 9 (answered ())) sampleState).2.todos =
      sampleState.todos :=
  (toggleComplete_frame sampleCodec sampleState 9 (answered ())).2.2.2 (by decide)

/-- C7: whatever the remote delete call answers, `deleteTodo(id)` does not
throw and leaves exactly the todos of the previous list whose id differs from
`id`, in their original order, so that no todo with that id remains; when the
ids are pairwise distinct and `id` is in the list, the list gets shorter by
exactly one. -/
theorem deleteTodo_removes_id (J : JsonCodec) (st : AppState) (id : Nat) (fetch : Fetch Unit) :
    (exec (deleteTodo J id fetch) st).1 = .ok () ∧
    (exec (deleteTodo J id fetch) st).2.todos = (st.todos.filter fun todo => todo.id != id) ∧
    (exec (deleteTodo J id fetch) st).2.todos.Sublist st.todos ∧
    (∀ t, t ∈ (exec (deleteTodo J id fetch) st).2.todos ↔ t ∈ st.todos ∧ t.id ≠ id) ∧
    id ∉ ids (exec (deleteTodo J id fetch) st).2.todos ∧
    ((ids st.todos).Nodup → id ∈ ids st.todos →
      (exec (deleteTodo J id fetch) st).2.todos.length + 1 = st.todos.length) := by
  refine ⟨?_, ?_, ?_, ?_, ?_, ?_⟩
  · rw [exec_deleteTodo]
  · rw [todos_deleteTodo]
    rfl
  · rw [todos_deleteTodo]
    exact List.filter_sublist _
  · intro t
    rw [todos_deleteTodo]
    simp [removeId]
  · rw [todos_deleteTodo, ids_removeId]
    simp
  · intro hnd hid
    rw [todos_deleteTodo]
    exact length_removeId id st.todos hnd hid

/-- Instance: deleting id 2 from the two-item sample
list leaves one item. -/
theorem deleteTodo_removes_id_witness :
    (exec (deleteTodo sampleCodec 2 offline) sampleState).2.todos.length + 1 =
      sampleState.todos.length :=
  (deleteTodo_removes_id sampleCodec sampleState 2 offline).2.2.2.2.2 (by decide) (by decide)

/-- C10: pairwise-distinct ids are kept by the edit handlers, whatever the
remote call answers: by `toggleComplete(id)`, by `deleteTodo(id)`, and by
`addTodo(text)` when the temporary id is not in the list. -/
theorem ids_nodup_preserved (J : JsonCodec) (st : AppState) (now : Nat) (text : String)
    (id : Nat) (fa : Fetch Todo) (fu fd : Fetch Unit)
    (hnd : (ids st.todos).Nodup) (hfresh : now ∉ ids st.todos) :
    (ids (exec (toggleComplete J id fu) st).2.todos).Nodup ∧
    (ids (exec (deleteTodo J id fd) st).2.todos).Nodup ∧
    (ids (exec (addTodo J now text fa) st).2.todos).Nodup := by
  have hcons : (ids (tempTodoOf now text :: st.todos)).Nodup :=
    List.nodup_cons.2 ⟨hfresh, hnd⟩
  refine ⟨?_, ?_, ?_⟩
  · rw [todos_toggleComplete, ids_toggleMap]
    exact hnd
  · rw [todos_deleteTodo, ids_removeId]
    exact hnd.filter _
  · rw [todos_addTodo]
    cases todoAPI.addTodo fa with
    | error e => exact hcons
    | ok r =>
      show (ids (replaceTemp now r (tempTodoOf now text :: st.todos))).Nodup
      rw [ids_replaceTemp]
      exact hcons

/-- Instance: the sample list, the fresh id 7, and an
API answer that carries the id 1 already in the list. -/
theorem ids_nodup_preserved_witness :
    (ids sampleState.todos).Nodup ∧ 7 ∉ ids sampleState.todos ∧
    (ids (exec (addTodo sampleCodec 7 "tea"
        (answered { id := 1, todo := "tea", completed := false, userId := 1 }))
      sampleState).2.todos).Nodup :=
  ⟨by decide, by decide,
    (ids_nodup_preserved sampleCodec sampleState 7 "tea" 1
      (answered { id := 1, todo := "tea", completed := false, userId := 1 })
      offline offline (by decide) (by decide)).2.2⟩

/-! ## Claims about the derived data -/

/-- C8: under `'completed'` the displayed list is the sublist of the todos
with `completed` true, under `'pending'` the sublist of those with `completed`
false, under `'all'` and under any other key the whole list, each in the
original order; every todo of the list is in exactly one of the `'pending'`
and `'completed'` views, and the two views together are a permutation of the
list. -/
theorem filteredTodos_views (todos : List Todo) (key : String) :
    filteredTodos todos "completed" = (todos.filter fun todo => todo.completed) ∧
    filteredTodos todos "pending" = (todos.filter fun todo => !todo.completed) ∧
    filteredTodos todos "all" = todos ∧
    (key ≠ "completed" → key ≠ "pending" → filteredTodos todos key = todos) ∧
    (filteredTodos todos key).Sublist todos ∧
    (∀ t ∈ todos,
      (t ∈ filteredTodos todos "pending" ∧ t ∉ filteredTodos todos "completed") ∨
      (t ∉ filteredTodos todos "pending" ∧ t ∈ filteredTodos todos "completed")) ∧
    (filteredTodos todos "pending" ++ filteredTodos todos "completed").Perm todos := by
  have hc : filteredTodos todos "completed" = (todos.filter fun todo => todo.completed) := rfl
  have hp : filteredTodos todos "pending" = (todos.filter fun todo => !todo.completed) := rfl
  have hother : ∀ k : String, k ≠ "completed" → k ≠ "pending" → filteredTodos todos k = todos := by
    intro k h1 h2
    unfold filteredTodos
    rw [List.filter_eq_self]
    intro t _
    split
    · exact absurd rfl h1
    · exact absurd rfl h2
    · rfl
  refine ⟨hc, hp, hother "all" (by decide) (by decide), hother key, List.filter_sublist _, ?_, ?_⟩
  · intro t ht
    rw [hc, hp]
    cases h : t.completed <;> simp [List.mem_filter, ht, h]
  · rw [hc, hp]
    exact List.perm_append_comm.trans (List.filter_append_perm _ todos)

/-- Instance: a key that is none of the three buttons
shows the whole list. -/
theorem filteredTodos_views_witness :
    filteredTodos sampleState.todos "done" = sampleState.todos :=
  (filteredTodos_views sampleState.todos "done").2.2.2.1 (by decide) (by decide)

theorem length_filter_add_length_filter_not (todos : List Todo) :
    (todos.filter fun todo => todo.completed).length +
      (todos.filter fun todo => !todo.completed).length = todos.length := by
  induction todos with
  | nil => rfl
  | cons t rest ih =>
    cases h : t.completed <;> simp [List.filter_cons, h] <;> omega

/-- C9: `Total` is the length of the list, `Completed` the number of todos
with `completed` true, and `Pending`, computed as `Total - Completed`, is
never negative and is the number of todos with `completed` false, which is the
length of the list displayed under `'pending'`; so `Total = Pending +
Completed`. -/
theorem stats_consistent (todos : List Todo) :
    totalTodos todos = todos.length ∧
    completedTodos todos = todos.countP (fun todo => todo.completed) ∧
    0 ≤ pendingTodos todos ∧
    pendingTodos todos = ((todos.countP fun todo => !todo.completed : Nat) : Int) ∧
    pendingTodos todos = (((filteredTodos todos "pending").length : Nat) : Int) ∧
    (totalTodos todos : Int) = pendingTodos todos + (completedTodos todos : Int) := by
  have hsum := length_filter_add_length_filter_not todos
  have hp : filteredTodos todos "pending" = (todos.filter fun todo => !todo.completed) := rfl
  have hpend : pendingTodos todos =
      (((todos.filter fun todo => !todo.completed).length : Nat) : Int) := by
    unfold pendingTodos totalTodos completedTodos
    omega
  refine ⟨rfl, ?_, ?_, ?_, ?_, ?_⟩
  · rw [completedTodos, List.countP_eq_length_filter]
  · rw [hpend]
    exact Int.ofNat_nonneg _
  · rw [hpend, List.countP_eq_length_filter]
  · rw [hpend, hp]
  · unfold pendingTodos
    omega

/-! ## Claims about the storage entry -/

@[simp]
theorem withParsed_error (J : JsonCodec) (value : Json) (s : AppState) :
    (withParsed J value s).error = s.error := by
  cases value <;> simp [withParsed]

@[simp]
theorem restore_error (J : JsonCodec) (s : AppState) :
    (restore J s).error = s.error := by
  unfold restore
  split
  · split <;> simp
  · rfl

theorem restore_of_falsy (J : JsonCodec) (s : AppState) (h : truthy s.storage = false) :
    restore J s = s := by
  unfold restore
  rw [if_neg (by simp [h])]

theorem restore_of_parse_error (J : JsonCodec) (s : AppState) (e : String)
    (h : J.parse (s.storage.getD "") = .error e) : restore J s = s := by
  unfold restore
  split
  · rw [h]
  · rfl

theorem restore_of_parse_ok (J : JsonCodec) (s : AppState) (l : List Todo)
    (ht : truthy s.storage = true) (h : J.parse (s.storage.getD "") = .ok (.todos l)) :
    restore J s = withTodos J (fun _ => l) s := by
  unfold restore
  rw [if_pos ht, h]
  rfl

theorem restore_of_parse_other (J : JsonCodec) (s : AppState) (v : String)
    (ht : truthy s.storage = true) (h : J.parse (s.storage.getD "") = .ok (.other v)) :
    restore J s = { s with foreign := some v } := by
  unfold restore
  rw [if_pos ht, h]
  rfl

/-- C2: the code breaks the claim at the empty list. The one-item sample
state has the matching storage entry; `deleteTodo` of that todo, confirmed by
the server, empties the list, and the entry still holds the one-item list and
not the serialisation of the empty list, so that the next mount without
network shows the deleted todo again. The write of line 217, on the load
path, does store an empty list. -/
theorem storage_stale_after_last_delete :
    lastItemState.storage = some (sampleCodec.stringify lastItemState.todos) ∧
    (exec (deleteTodo sampleCodec 1 (answered ())) lastItemState).2.todos = [] ∧
    (exec (deleteTodo sampleCodec 1 (answered ())) lastItemState).2.storage =
      some (sampleCodec.stringify [{ id := 1, todo := "milk", completed := false, userId := 1 }]) ∧
    (exec (deleteTodo sampleCodec 1 (answered ())) lastItemState).2.storage ≠
      some (sampleCodec.stringify
        (exec (deleteTodo sampleCodec 1 (answered ())) lastItemState).2.todos) ∧
    (exec (loadTodos sampleCodec offline)
        (AppState.initial
          (exec (deleteTodo sampleCodec 1 (answered ())) lastItemState).2.storage)).2.todos =
      [{ id := 1, todo := "milk", completed := false, userId := 1 }] ∧
    (exec (loadTodos sampleCodec (answered { todos := some [] }))
        (AppState.initial lastItemState.storage)).2.storage =
      some (sampleCodec.stringify []) := by
  decide

/-- C5: on mount, when the remote fetch of the todos fails, `loadTodos` does
not throw, the error message is the offline notice and loading ends as
`false`, whatever the storage entry holds. When the entry exists and parses to
a list of todos, the todo list afterwards is that list; when the entry is
absent, empty or does not parse, the todo list stays empty. In the one case
left, an entry that parses to a value that is not a list of todos, that value
is put into the `todos` cell unchecked. -/
theorem loadTodos_offline (J : JsonPlatform) (c : Option String) (fetch : Fetch TodosPage)
    (hfail : rejected (todoAPI.getAllTodos fetch) = true) :
    (exec (loadTodos J.toJsonCodec fetch) (AppState.initial c)).1 = .ok () ∧
    (exec (loadTodos J.toJsonCodec fetch) (AppState.initial c)).2.error =
      some "Failed to load todos. Using offline data if available." ∧
    (exec (loadTodos J.toJsonCodec fetch) (AppState.initial c)).2.loading = false ∧
    (∀ (s : String) (l : List Todo), c = some s → s ≠ "" → J.parse s = .ok (.todos l) →
      (exec (loadTodos J.toJsonCodec fetch) (AppState.initial c)).2.todos = l ∧
      (exec (loadTodos J.toJsonCodec fetch) (AppState.initial c)).2.foreign = none) ∧
    ((c = none ∨ c = some "" ∨ ∃ s e, c = some s ∧ J.parse s = .error e) →
      (exec (loadTodos J.toJsonCodec fetch) (AppState.initial c)).2.todos = [] ∧
      (exec (loadTodos J.toJsonCodec fetch) (AppState.initial c)).2.foreign = none) ∧
    (∀ (s v : String), c = some s → s ≠ "" → J.parse s = .ok (.other v) →
      (exec (loadTodos J.toJsonCodec fetch) (AppState.initial c)).2.todos = [] ∧
      (exec (loadTodos J.toJsonCodec fetch) (AppState.initial c)).2.foreign = some v) := by
  obtain ⟨e, he⟩ := (rejected_iff _).1 hfail
  rw [exec_loadTodos, he]
  refine ⟨rfl, ?_, rfl, ?_, ?_, ?_⟩
  · simp
  · intro s l hc hs hparse
    subst hc
    have ht : truthy (some s) = true := by simp [truthy, hs]
    have h1 : restore J.toJsonCodec
          { AppState.initial (some s) with loading := true, error := none } =
        withTodos J.toJsonCodec (fun _ => l)
          { AppState.initial (some s) with loading := true, error := none } :=
      restore_of_parse_ok J.toJsonCodec _ l ht hparse
    simp only [h1]
    by_cases hl : l = []
    · subst hl
      rw [restore_of_parse_ok J.toJsonCodec _ [] (by simpa [withTodos_storage] using ht)
        (by simpa [withTodos_storage] using hparse)]
      exact ⟨by simp, by simp [AppState.initial]⟩
    · by_cases ht2 : truthy (some (J.stringify l)) = true
      · rw [restore_of_parse_ok J.toJsonCodec _ l (by simpa [withTodos_storage, hl] using ht2)
          (by simpa [withTodos_storage, hl] using J.parse_stringify l)]
        exact ⟨by simp, by simp [AppState.initial]⟩
      · rw [restore_of_falsy J.toJsonCodec _ (by simpa [withTodos_storage, hl] using ht2)]
        exact ⟨by simp, by simp [AppState.initial]⟩
  · intro hc
    have hsame : ∀ s0 : AppState, s0.storage = c → restore J.toJsonCodec s0 = s0 := by
      intro s0 h0
      rcases hc with hc | hc | ⟨s, e2, hc, hp⟩
      · exact restore_of_falsy J.toJsonCodec _ (by rw [h0, hc]; rfl)
      · exact restore_of_falsy J.toJsonCodec _ (by rw [h0, hc]; decide)
      · exact restore_of_parse_error J.toJsonCodec _ e2 (by rw [h0, hc]; exact hp)
    rw [hsame _ rfl, hsame _ rfl]
    exact ⟨rfl, rfl⟩
  · intro s v hc hs hparse
    subst hc
    have ht : truthy (some s) = true := by simp [truthy, hs]
    have hother : ∀ s0 : AppState, s0.storage = some s →
        restore J.toJsonCodec s0 = { s0 with foreign := some v } := by
      intro s0 h0
      exact restore_of_parse_other J.toJsonCodec s0 v (by rw [h0]; exact ht)
        (by rw [h0]; exact hparse)
    rw [hother _ rfl, hother _ rfl]
    exact ⟨rfl, rfl⟩

/-- Instance: the network is down. A storage entry that holds the two-item
sample list becomes the todo list; the entry `null` parses to a value that is
not a list and lands in the `todos` cell. -/
theorem loadTodos_offline_witness :
    rejected (todoAPI.getAllTodos offline) = true ∧
    (exec (loadTodos sampleCodec offline) (AppState.initial sampleState.storage)).2.todos =
      [{ id := 1, todo := "milk", completed := false, userId := 1 },
       { id := 2, todo := "eggs", completed := true, userId := 1 }] ∧
    (exec (loadTodos sampleCodec offline) (AppState.initial (some "null"))).2.foreign =
      some "null" :=
  ⟨by decide,
    ((loadTodos_offline sampleJson sampleState.storage offline (by decide)).2.2.2.1
      "1101011110milkF1011011110eggsT10" _ rfl (by decide) rfl).1,
    ((loadTodos_offline sampleJson (some "null") offline (by decide)).2.2.2.2.2
      "null" "null" rfl (by decide) rfl).2⟩

end TodoApp
